import Mathlib

/-!
Verification of the INOVAFINANCE voice pipeline and transit lookup.

Each section embeds one part of the TypeScript source as executable Lean
definitions and proves (or refutes) the corresponding specification claims.
JavaScript numbers are modelled exactly as unreduced rationals: every value
handled by the embedded code paths is a small decimal for which IEEE double
arithmetic is exact, so the exact-rational semantics agrees with the source.
-/

/-- Exact-rational model of a JavaScript number: an unreduced fraction
num / den.  All embedded code paths keep den positive. -/
structure JsNumber where
  num : Int
  den : Nat
  deriving DecidableEq, Repr

/-- Embed an integer as a JavaScript number. -/
def jsOfInt (n : Int) : JsNumber := ⟨n, 1⟩

/-- Model of Math.abs. -/
def jsAbs (v : JsNumber) : JsNumber := ⟨|v.num|, v.den⟩

/-- Model of unary minus. -/
def jsNeg (v : JsNumber) : JsNumber := ⟨-v.num, v.den⟩

/-- Model of subtraction on unreduced fractions. -/
def jsSub (a b : JsNumber) : JsNumber :=
  ⟨a.num * b.den - b.num * a.den, a.den * b.den⟩

/-- Model of multiplication on unreduced fractions. -/
def jsMul (a b : JsNumber) : JsNumber := ⟨a.num * b.num, a.den * b.den⟩

/-- Model of addition on unreduced fractions. -/
def jsAdd (a b : JsNumber) : JsNumber :=
  ⟨a.num * b.den + b.num * a.den, a.den * b.den⟩

/-- Model of Math.floor: floor division of the numerator by the denominator. -/
def jsFloor (v : JsNumber) : Int := v.num.fdiv v.den

/-- Model of Math.round, which rounds half-up: round v = floor (v + 1/2). -/
def jsRound (v : JsNumber) : Int := (2 * v.num + v.den).fdiv (2 * v.den)

/-- Word tables of numberToWords (src/src/services/isaVoiceService.ts). -/
def unitsWords : List String :=
  ["", "um", "dois", "três", "quatro", "cinco", "seis", "sete", "oito", "nove"]

/-- Teens table of numberToWords. -/
def teensWords : List String :=
  ["dez", "onze", "doze", "treze", "quatorze", "quinze", "dezesseis",
   "dezessete", "dezoito", "dezenove"]

/-- Tens table of numberToWords. -/
def tensWords : List String :=
  ["", "", "vinte", "trinta", "quarenta", "cinquenta", "sessenta", "setenta",
   "oitenta", "noventa"]

/-- Hundreds table of numberToWords. -/
def hundredsWords : List String :=
  ["", "cento", "duzentos", "trezentos", "quatrocentos", "quinhentos",
   "seiscentos", "setecentos", "oitocentos", "novecentos"]

/-- Fuel-indexed body of numberToWords.  The fuel only serves to make the
recursion structural; every recursive call in the source strictly decreases
the argument, so fuel num + 1 is always sufficient. -/
def numberToWordsGo : Nat → Nat → String
  | 0, _ => ""
  | fuel + 1, num =>
    if num = 0 then "zero"
    else if 1000000 ≤ num then
      let millions := num / 1000000
      let remainder := num % 1000000
      let result :=
        if millions = 1 then "um milhão"
        else numberToWordsGo fuel millions ++ " milhões"
      if 0 < remainder then
        result ++ (if remainder < 100 then " e " else " ")
          ++ numberToWordsGo fuel remainder
      else result
    else if 1000 ≤ num then
      let thousands := num / 1000
      let remainder := num % 1000
      let result :=
        if thousands = 1 then "mil"
        else numberToWordsGo fuel thousands ++ " mil"
      if 0 < remainder then
        result ++ (if remainder < 100 then " e " else " ")
          ++ numberToWordsGo fuel remainder
      else result
    else if 100 ≤ num then
      if num = 100 then "cem"
      else
        let h := num / 100
        let remainder := num % 100
        if 0 < remainder then
          hundredsWords.getD h "" ++ " e " ++ numberToWordsGo fuel remainder
        else hundredsWords.getD h ""
    else if 20 ≤ num then
      let t := num / 10
      let u := num % 10
      if 0 < u then tensWords.getD t "" ++ " e " ++ unitsWords.getD u ""
      else tensWords.getD t ""
    else if 10 ≤ num then teensWords.getD (num - 10) ""
    else unitsWords.getD num ""

/-- Model of numberToWords (src/src/services/isaVoiceService.ts lines 86-142):
convert a nonnegative integer to Brazilian Portuguese words. -/
def numberToWords (num : Nat) : String := numberToWordsGo (num + 1) num

/-- Model of currencyToSpeech (src/src/services/isaVoiceService.ts lines
56-81): speak a currency value, with the accented unit words reál / reáis
used by that file. -/
def currencyToSpeech (value : JsNumber) : String :=
  if value.num = 0 then "zero reáis"
  else
    let absValue := jsAbs value
    let reais : Int := jsFloor absValue
    let centavos : Int :=
      jsRound (jsMul (jsSub absValue (jsOfInt reais)) (jsOfInt 100))
    let result :=
      if 0 < reais then
        numberToWords reais.toNat ++ (if reais = 1 then " reál" else " reáis")
      else ""
    let result :=
      if 0 < centavos then
        (if 0 < reais then result ++ " e " else result)
          ++ numberToWords centavos.toNat
          ++ (if centavos = 1 then " centavo" else " centavos")
      else result
    if value.num < 0 then "menos " ++ result else result

example : currencyToSpeech ⟨1050, 100⟩ = "dez reáis e cinquenta centavos" := by
  decide

example : currencyToSpeech ⟨99, 100⟩ = "noventa e nove centavos" := by decide

/-- Helper: floor division extracting the integer part of r*100+c cents. -/
theorem fdiv_cents_int (r c : Nat) (hc : c ≤ 99) :
    ((r * 100 + c : Nat) : Int).fdiv ((100 : Nat) : Int) = (r : Int) := by
  rw [← Int.ofNat_fdiv]
  norm_cast
  rw [Nat.add_comm, Nat.add_mul_div_right _ _ (by norm_num : (0 : Nat) < 100),
      Nat.div_eq_of_lt (by omega)]
  omega

/-- Helper: rounding c cents written over denominator 100 recovers c. -/
theorem fdiv_round_cents (x y : Int) (c : Nat) (hx : x = ((100 + c * 200 : Nat) : Int))
    (hy : y = ((200 : Nat) : Int)) : x.fdiv y = (c : Int) := by
  subst hx hy
  rw [← Int.ofNat_fdiv]
  norm_cast
  rw [Nat.add_mul_div_right _ _ (by norm_num : (0 : Nat) < 200)]
  omega

/-- C7: the spoken form of 10.50 is the Portuguese words for ten reais and
fifty centavos (plural unit and subunit), 0.99 is ninety-nine centavos with
no unit word, and in general the unit word is singular exactly when the
integer part is 1 and the subunit word is singular exactly when the
centavos count is 1. -/
theorem currencyToSpeech_words :
    currencyToSpeech ⟨1050, 100⟩ = "dez reáis e cinquenta centavos" ∧
    currencyToSpeech ⟨99, 100⟩ = "noventa e nove centavos" ∧
    ∀ r c : Nat, c ≤ 99 → 0 < r + c →
      currencyToSpeech ⟨(r * 100 + c : Nat), 100⟩ =
        (if r = 0 then ""
         else numberToWords r ++ (if r = 1 then " reál" else " reáis"))
        ++ (if c = 0 then ""
            else (if r = 0 then "" else " e ") ++ numberToWords c
              ++ (if c = 1 then " centavo" else " centavos")) := by
  refine ⟨by decide, by decide, ?_⟩
  intro r c hc hpos
  have hnz : ¬ ((r * 100 + c : Nat) : Int) = 0 := by
    push_cast
    omega
  have hnn : ¬ ((r * 100 + c : Nat) : Int) < 0 := by
    push_cast
    omega
  have habs : |((r * 100 + c : Nat) : Int)| = ((r * 100 + c : Nat) : Int) :=
    abs_of_nonneg (by positivity)
  have h1 : jsFloor (jsAbs ⟨((r * 100 + c : Nat) : Int), 100⟩) = (r : Int) := by
    simp only [jsAbs, jsFloor, habs]
    exact fdiv_cents_int r c hc
  have h2 : jsRound (jsMul (jsSub (jsAbs ⟨((r * 100 + c : Nat) : Int), 100⟩)
      (jsOfInt (r : Int))) (jsOfInt 100)) = (c : Int) := by
    simp only [jsAbs, jsSub, jsMul, jsOfInt, jsRound, habs]
    exact fdiv_round_cents _ _ c (by push_cast; try ring) (by push_cast; try ring)
  simp only [currencyToSpeech, if_neg hnz, if_neg hnn, h1, h2,
    Int.toNat_natCast]
  have hrpos : (0 < (r : Int)) = (0 < r) := by simp
  have hcpos : (0 < (c : Int)) = (0 < c) := by simp
  have hre1 : ((r : Int) = 1) = (r = 1) := by simp
  have hce1 : ((c : Int) = 1) = (c = 1) := by simp
  simp only [hrpos, hcpos, hre1, hce1]
  have hs1 : ∀ x : String, " reál" ++ (" e " ++ x) = " reál e " ++ x := fun x => by
    rw [← String.append_assoc]
    rfl
  have hs2 : ∀ x : String, " reáis" ++ (" e " ++ x) = " reáis e " ++ x := fun x => by
    rw [← String.append_assoc]
    rfl
  rcases Nat.eq_zero_or_pos r with hr | hr <;>
    rcases Nat.eq_zero_or_pos c with hcz | hcz
  all_goals try split_ifs
  all_goals try simp_all
  all_goals simp [String.append_assoc, hs1, hs2]

/-- Witness for C7: the general clause instantiated at 10.50. -/
theorem currencyToSpeech_words_witness :
    50 ≤ 99 ∧ 0 < 10 + 50 ∧
    currencyToSpeech ⟨10 * 100 + 50, 100⟩ =
      (if (10 : Nat) = 0 then ""
       else numberToWords 10 ++ (if (10 : Nat) = 1 then " reál" else " reáis"))
      ++ (if (50 : Nat) = 0 then ""
          else (if (10 : Nat) = 0 then "" else " e ") ++ numberToWords 50
            ++ (if (50 : Nat) = 1 then " centavo" else " centavos")) :=
  ⟨by decide, by decide, currencyToSpeech_words.2.2 10 50 (by decide) (by decide)⟩

/-- C9: for strictly negative values the spoken form is the word menos
prefixed to the spoken form of the opposite value. -/
theorem currencyToSpeech_neg (v : JsNumber) (hv : v.num < 0) :
    currencyToSpeech v = "menos " ++ currencyToSpeech (jsNeg v) := by
  have h1 : ¬ v.num = 0 := by omega
  have h2 : ¬ (-v.num = 0) := by omega
  have h3 : ¬ (-v.num < 0) := by omega
  simp only [currencyToSpeech, jsNeg, jsAbs, abs_neg, if_neg h1, if_neg h2,
    if_pos hv, if_neg h3]

/-- Witness for C9 at the concrete value -10.50. -/
theorem currencyToSpeech_neg_witness :
    (⟨-1050, 100⟩ : JsNumber).num < 0 ∧
    currencyToSpeech ⟨-1050, 100⟩
      = "menos " ++ currencyToSpeech (jsNeg ⟨-1050, 100⟩) :=
  ⟨by decide, currencyToSpeech_neg ⟨-1050, 100⟩ (by decide)⟩

/-- Events observable during one run of the TTS orchestrators: stopping all
audio, playing a pre-cached phrase, playing from the in-memory URL cache,
invoking each network adapter, playing its audio, and invoking the native
browser voice. -/
inductive SpeakEvent where
  | stopAll
  | playCachedPhrase
  | playMemCached
  | callEleven
  | playEleven
  | callGemini
  | playGemini
  | callNative
  deriving DecidableEq, Repr

/-- Environment of one run of speak (src/src/services/ttsService.ts lines
125-188): the outcome of every external interaction the function can make.
The playback flags model playAudioExclusively, which per the Playback
Exclusivity Manager contract resolves when playback ends or rejects on a
playback error (audioManager.ts is not part of the sources; its rejection
behaviour is modelled from the spec). -/
structure SpeakEnv where
  textEmpty : Bool
  phraseKeyFound : Bool
  playCachedOk : Bool
  memCacheHit : Bool
  memPlayFails : Bool
  elevenSynthOk : Bool
  elevenPlayOk : Bool
  geminiSynthOk : Bool
  geminiPlayOk : Bool
  deriving DecidableEq

/-- Gemini fallback step of speak: try the Gemini adapter and, when it
returns audio, play it with the playback error caught.  The source then
falls through to a log statement in every failure case; it never invokes a
native adapter and never rethrows. -/
def speakGeminiStep (t : List SpeakEvent) (e : SpeakEnv) :
    List SpeakEvent × Bool :=
  let t := t ++ [SpeakEvent.callGemini]
  if e.geminiSynthOk then (t ++ [SpeakEvent.playGemini], false)
  else (t, false)

/-- Model of speak (src/src/services/ttsService.ts lines 125-188).  Returns
the list of events of the run and whether the returned promise rejects.
The memory-cache playback at line 150 is the only await not wrapped in a
try block, so only that flag can surface as a rejection. -/
def speakRun (e : SpeakEnv) : List SpeakEvent × Bool :=
  if e.textEmpty then ([], false)
  else
    let t := [SpeakEvent.stopAll]
    if e.phraseKeyFound && e.playCachedOk then
      (t ++ [SpeakEvent.playCachedPhrase], false)
    else
      let t := if e.phraseKeyFound then t ++ [SpeakEvent.playCachedPhrase] else t
      if e.memCacheHit then (t ++ [SpeakEvent.playMemCached], e.memPlayFails)
      else
        let t := t ++ [SpeakEvent.callEleven]
        if e.elevenSynthOk then
          let t := t ++ [SpeakEvent.playEleven]
          if e.elevenPlayOk then (t, false)
          else speakGeminiStep t e
        else speakGeminiStep t e

/-- Environment of one run of speakWithElevenLabs (src/unnamed/part_003
lines 134-194): whether the cleaned text is empty, whether the fetch or
blob call throws, whether the response is ok, whether playback of the
ElevenLabs audio rejects, and whether the Gemini fallback succeeds. -/
structure ElevenEnv where
  cleanEmpty : Bool
  fetchThrows : Bool
  responseOk : Bool
  elevenPlayFails : Bool
  geminiOk : Bool
  deriving DecidableEq

/-- Model of speakWithElevenLabs (src/unnamed/part_003 lines 134-194): on a
failed or thrown ElevenLabs request it falls back to Gemini and, when
Gemini also fails, unconditionally invokes the never-rejecting native
browser voice. -/
def speakWithElevenLabsRun (e : ElevenEnv) : List SpeakEvent × Bool :=
  if e.cleanEmpty then ([], false)
  else
    let t := [SpeakEvent.stopAll, SpeakEvent.callEleven]
    if e.fetchThrows then
      let t := t ++ [SpeakEvent.callGemini]
      if e.geminiOk then (t ++ [SpeakEvent.playGemini], false)
      else (t ++ [SpeakEvent.callNative], false)
    else if !e.responseOk then
      let t := t ++ [SpeakEvent.callGemini]
      if e.geminiOk then (t ++ [SpeakEvent.playGemini], false)
      else (t ++ [SpeakEvent.callNative], false)
    else
      (t ++ [SpeakEvent.playEleven], e.elevenPlayFails)

/-- Network adapter invocations of an event. -/
def isNetworkCall (ev : SpeakEvent) : Bool :=
  ev = SpeakEvent.callEleven || ev = SpeakEvent.callGemini

/-- C1 counterexample: on a run where the phrase cache misses and both
network adapters fail, speak calls ElevenLabs then Gemini but never invokes
any native adapter, contradicting the claimed unconditional native terminal
step of the speak orchestrator. -/
theorem speak_native_terminal_counterexample :
    (SpeakEnv.mk false false false false false false false false false).elevenSynthOk = false ∧
    (SpeakEnv.mk false false false false false false false false false).geminiSynthOk = false ∧
    (speakRun (SpeakEnv.mk false false false false false false false false false)).1
      = [SpeakEvent.stopAll, SpeakEvent.callEleven, SpeakEvent.callGemini] ∧
    SpeakEvent.callNative ∉
      (speakRun (SpeakEnv.mk false false false false false false false false false)).1 := by
  decide

/-- C1 amended: speak calls the network adapters in the fixed order
ElevenLabs then Gemini, short-circuits once the primary both synthesizes
and plays, and never invokes a native adapter even when every network
adapter fails; the companion orchestrator speakWithElevenLabs is the one
that invokes the native voice as a terminal step when both network
adapters fail. -/
theorem speak_priority_order_and_native_fallback :
    (∀ e : SpeakEnv,
      SpeakEvent.callNative ∉ (speakRun e).1 ∧
      ((speakRun e).1.filter isNetworkCall = []
        ∨ (speakRun e).1.filter isNetworkCall = [SpeakEvent.callEleven]
        ∨ (speakRun e).1.filter isNetworkCall
            = [SpeakEvent.callEleven, SpeakEvent.callGemini]) ∧
      (e.elevenSynthOk = true → e.elevenPlayOk = true →
        SpeakEvent.callGemini ∉ (speakRun e).1)) ∧
    (∀ e : ElevenEnv, e.cleanEmpty = false →
      (e.fetchThrows = true ∨ e.responseOk = false) → e.geminiOk = false →
      SpeakEvent.callNative ∈ (speakWithElevenLabsRun e).1 ∧
      (speakWithElevenLabsRun e).2 = false) := by
  constructor
  · intro e
    rcases e with ⟨a, b, c, d, f, g, h, i, j⟩
    revert a b c d f g h i j
    decide
  · intro e
    rcases e with ⟨a, b, c, d, f⟩
    revert a b c d f
    decide

/-- Witness for the amended C1 theorem at concrete environments. -/
theorem speak_priority_order_and_native_fallback_witness :
    SpeakEvent.callGemini ∉
      (speakRun (SpeakEnv.mk false false false false false true true false false)).1 ∧
    SpeakEvent.callNative ∈
      (speakWithElevenLabsRun (ElevenEnv.mk false false false false false)).1 :=
  ⟨(speak_priority_order_and_native_fallback.1
      (SpeakEnv.mk false false false false false true true false false)).2.2 rfl rfl,
   (speak_priority_order_and_native_fallback.2
      (ElevenEnv.mk false false false false false) rfl (Or.inr rfl) rfl).1⟩

/-- C2: evaluation of speak at the failing input.  With a memory-cache hit
whose playback rejects, the run ends with a rejected promise: the await of
playAudioExclusively on the memory-cache path is the one playback without a
surrounding try block, contradicting the never-raises claim, while every
other environment terminates normally. -/
theorem speak_memCache_playback_raises :
    (speakRun (SpeakEnv.mk false false false true true false false false false)).2 = true ∧
    (∀ e : SpeakEnv, e.memCacheHit = false → (speakRun e).2 = false) := by
  refine ⟨by decide, ?_⟩
  intro e
  rcases e with ⟨a, b, c, d, f, g, h, i, j⟩
  revert a b c d f g h i j
  decide

/-- State visible to one run of speakGreeting (src/src/hooks/useIsaGreeting.ts
lines 52-307): the global voice flag, the hook options, the two component
refs, the session-scoped greeted-tab set and daily flag kept by
voiceQueueService, and whether another voice is currently playing. -/
structure GreetState where
  voiceEnabled : Bool
  enabledOpt : Bool
  userIdValid : Bool
  isProcessing : Bool
  hasSpoken : Bool
  greetedTabs : List String
  voicePlaying : Bool
  dailyGreeted : Bool
  deriving DecidableEq, Repr

/-- Model of speakPageSpecificGreeting (useIsaGreeting.ts lines 133-285):
build the page message and, when it is nonempty, speak it, mark the tab
greeted for the session and set the spoken ref.  Returns the new state and
the number of isaSpeak invocations. -/
def speakPageSpecificGreeting (pageType : String) (msgNonempty : Bool)
    (s : GreetState) : GreetState × Nat :=
  if msgNonempty then
    ({ s with greetedTabs := pageType :: s.greetedTabs, hasSpoken := true }, 1)
  else (s, 0)

/-- Model of speakGreeting (useIsaGreeting.ts lines 72-131): the guard
chain, the special first-access-of-the-day greeting on the dashboard, and
the page-specific greeting.  The processing ref is set during the body and
reset in the finally block, so across a whole run it is unchanged. -/
def speakGreeting (pageType : String) (msgNonempty : Bool) (s : GreetState) :
    GreetState × Nat :=
  if !s.voiceEnabled then (s, 0)
  else if !s.enabledOpt || !s.userIdValid then (s, 0)
  else if s.isProcessing then (s, 0)
  else if s.hasSpoken then (s, 0)
  else if s.greetedTabs.contains pageType then ({ s with hasSpoken := true }, 0)
  else if s.voicePlaying then (s, 0)
  else if !s.dailyGreeted && pageType = "dashboard" then
    let s1 := { s with dailyGreeted := true,
                       greetedTabs := pageType :: s.greetedTabs,
                       hasSpoken := true }
    let r := speakPageSpecificGreeting pageType msgNonempty s1
    (r.1, r.2 + 1)
  else speakPageSpecificGreeting pageType msgNonempty s

/-- Helper: a run that spoke leaves the spoken ref set and the tab marked
greeted for the session. -/
theorem speakGreeting_spoke_marks (pageType : String) (msgNonempty : Bool)
    (s : GreetState) (h : 0 < (speakGreeting pageType msgNonempty s).2) :
    (speakGreeting pageType msgNonempty s).1.hasSpoken = true ∧
    (speakGreeting pageType msgNonempty s).1.greetedTabs.contains pageType = true ∧
    (speakGreeting pageType msgNonempty s).1.voiceEnabled = s.voiceEnabled ∧
    (speakGreeting pageType msgNonempty s).1.enabledOpt = s.enabledOpt ∧
    (speakGreeting pageType msgNonempty s).1.userIdValid = s.userIdValid ∧
    (speakGreeting pageType msgNonempty s).1.isProcessing = s.isProcessing := by
  unfold speakGreeting speakPageSpecificGreeting at *
  split_ifs at h ⊢ <;> simp_all [List.contains_cons]

/-- Helper: with the spoken ref already set the run speaks nothing. -/
theorem speakGreeting_of_hasSpoken (pageType : String) (msgNonempty : Bool)
    (s : GreetState) (h : s.hasSpoken = true) :
    (speakGreeting pageType msgNonempty s).2 = 0 := by
  unfold speakGreeting
  split_ifs <;> simp_all

/-- Helper: with the tab already marked greeted and the spoken ref clear,
the run only sets the spoken ref and speaks nothing. -/
theorem speakGreeting_of_tabGreeted (pageType : String) (msgNonempty : Bool)
    (s : GreetState) (h : s.greetedTabs.contains pageType = true) :
    (speakGreeting pageType msgNonempty s).2 = 0 := by
  unfold speakGreeting speakPageSpecificGreeting
  split_ifs <;> simp_all

/-- C6: when a first run of the greeting flow speaks, a second run for the
same tab speaks nothing, whether the second run happens in the same
component instance (blocked by the spoken ref) or after a remount that
resets both refs (blocked by the session-scoped per-tab greeted flag set by
the first run), so two runs produce exactly one spoken greeting. -/
theorem speakGreeting_twice_speaks_once (pageType : String)
    (msgNonempty msgNonempty2 : Bool) (s : GreetState)
    (h : 0 < (speakGreeting pageType msgNonempty s).2) :
    (speakGreeting pageType msgNonempty2
        (speakGreeting pageType msgNonempty s).1).2 = 0 ∧
    (speakGreeting pageType msgNonempty2
        { (speakGreeting pageType msgNonempty s).1 with
            hasSpoken := false, isProcessing := false }).2 = 0 ∧
    ({ (speakGreeting pageType msgNonempty s).1 with
        hasSpoken := false,
        isProcessing := false} : GreetState).greetedTabs.contains pageType
      = true := by
  obtain ⟨h1, h2, -⟩ := speakGreeting_spoke_marks pageType msgNonempty s h
  refine ⟨speakGreeting_of_hasSpoken _ _ _ h1, ?_, h2⟩
  exact speakGreeting_of_tabGreeted _ _ _ h2

/-- Witness for C6: a concrete first run that speaks, followed by a second
run that does not. -/
theorem speakGreeting_twice_speaks_once_witness :
    0 < (speakGreeting "planner" true
        (GreetState.mk true true true false false [] false true)).2 ∧
    (speakGreeting "planner" true
        (speakGreeting "planner" true
          (GreetState.mk true true true false false [] false true)).1).2 = 0 :=
  ⟨by decide,
   (speakGreeting_twice_speaks_once "planner" true true
      (GreetState.mk true true true false false [] false true) (by decide)).1⟩

/-- Binary audio payload: a blob modelled as its byte sequence. -/
abbrev Blob := List Nat

/-- One record of the audio-phrases object store (src/unnamed/part_002):
the store uses key as its keyPath, so a put with an existing key replaces
that record. -/
structure CacheRecord where
  key : String
  audioBlob : Blob
  timestamp : Nat
  deriving DecidableEq, Repr

/-- The audio-phrases object store contents, in insertion order. -/
abbrev AudioDB := List CacheRecord

/-- Model of the IndexedDB put on a store with keyPath key: any record
with the same key is replaced. -/
def dbPut (db : AudioDB) (r : CacheRecord) : AudioDB :=
  (db.filter (fun e => e.key ≠ r.key)) ++ [r]

/-- Model of setCachedAudio (src/unnamed/part_002 lines 85-99): store the
record with the given key, blob, and current timestamp. -/
def setCachedAudio (db : AudioDB) (key : String) (audioBlob : Blob)
    (now : Nat) : AudioDB :=
  dbPut db ⟨key, audioBlob, now⟩

/-- Model of getCachedAudio (src/unnamed/part_002 lines 65-83): look up the
record for the key and return its blob, or none when absent. -/
def getCachedAudio (db : AudioDB) (key : String) : Option Blob :=
  (db.find? (fun e => e.key = key)).map (fun r => r.audioBlob)

/-- Model of clearAudioCache (src/unnamed/part_002 lines 225-242): clear
the whole store. -/
def clearAudioCache (_db : AudioDB) : AudioDB := []

/-- The store operations that mutate the cache between a put and a later
get: further puts (from playCachedPhrase or preloadCommonPhrases) and
explicit clears. -/
inductive CacheOp where
  | put (key : String) (audioBlob : Blob) (now : Nat)
  | clear
  deriving DecidableEq, Repr

/-- Apply one store operation. -/
def applyCacheOp (db : AudioDB) : CacheOp → AudioDB
  | CacheOp.put k b t => setCachedAudio db k b t
  | CacheOp.clear => clearAudioCache db

/-- Apply a sequence of store operations in order. -/
def applyCacheOps (db : AudioDB) (ops : List CacheOp) : AudioDB :=
  ops.foldl applyCacheOp db

/-- An operation touches a key when it is a clear or a put of that key. -/
def opTouches (key : String) : CacheOp → Bool
  | CacheOp.put k _ _ => k = key
  | CacheOp.clear => true

/-- Lookup after a put: the stored record is found for its own key and
lookups of other keys are unchanged. -/
theorem getCachedAudio_dbPut (db : AudioDB) (r : CacheRecord) (k : String) :
    getCachedAudio (dbPut db r) k
      = if r.key = k then some r.audioBlob else getCachedAudio db k := by
  unfold getCachedAudio dbPut
  induction db with
  | nil => split_ifs <;> simp_all [List.find?]
  | cons e t ih =>
    by_cases hek : e.key = r.key <;> by_cases hk : e.key = k <;>
      split_ifs at ih ⊢ <;>
        simp_all [List.find?_cons, List.filter_cons]

/-- Preservation: a sequence of operations that never touches a key leaves
the lookup of that key unchanged. -/
theorem getCachedAudio_applyCacheOps (db : AudioDB) (key : String)
    (ops : List CacheOp) (hops : ∀ op ∈ ops, opTouches key op = false) :
    getCachedAudio (applyCacheOps db ops) key = getCachedAudio db key := by
  induction ops generalizing db with
  | nil => rfl
  | cons op rest ih =>
    have hop : opTouches key op = false := hops op (by simp)
    have hrest : ∀ op ∈ rest, opTouches key op = false := fun o ho =>
      hops o (by simp [ho])
    cases op with
    | clear => simp [opTouches] at hop
    | put k2 b2 t2 =>
      have hk2 : ¬ k2 = key := by simpa [opTouches] using hop
      calc getCachedAudio (applyCacheOps (applyCacheOp db (CacheOp.put k2 b2 t2)) rest) key
          = getCachedAudio (applyCacheOp db (CacheOp.put k2 b2 t2)) key := ih _ hrest
        _ = getCachedAudio db key := by
            simp [applyCacheOp, setCachedAudio, getCachedAudio_dbPut, hk2]

/-- C5: after setCachedAudio stores blob B under key K, getCachedAudio K
returns exactly B, and keeps returning it across any further sequence of
store operations that contains no clear and no put of the same key. -/
theorem getCachedAudio_after_set (db : AudioDB) (key : String) (b : Blob)
    (now : Nat) (ops : List CacheOp)
    (hops : ∀ op ∈ ops, opTouches key op = false) :
    getCachedAudio (applyCacheOps (setCachedAudio db key b now) ops) key
      = some b := by
  rw [getCachedAudio_applyCacheOps _ _ _ hops]
  simp [setCachedAudio, getCachedAudio_dbPut]

/-- Witness for C5 at a concrete store, key, blob and operation list. -/
theorem getCachedAudio_after_set_witness :
    (∀ op ∈ [CacheOp.put "boa_tarde" [7] 3], opTouches "bom_dia" op = false) ∧
    getCachedAudio
      (applyCacheOps (setCachedAudio [] "bom_dia" [1, 2, 3] 0)
        [CacheOp.put "boa_tarde" [7] 3]) "bom_dia" = some [1, 2, 3] :=
  ⟨by decide,
   getCachedAudio_after_set [] "bom_dia" [1, 2, 3] 0
     [CacheOp.put "boa_tarde" [7] 3] (by decide)⟩

/-- State of the key-rotation module
(src/supabase/functions/text-to-speech/index.ts lines 132-150): the
configured key pool and the module-level rotation cursor. -/
structure KeyRotationState where
  apiKeys : List String
  currentKeyIndex : Nat
  deriving DecidableEq, Repr

/-- Model of getNextApiKey (text-to-speech/index.ts lines 144-150): return
the key under the cursor and advance the cursor modulo the pool size. -/
def getNextApiKey (s : KeyRotationState) : Option String × KeyRotationState :=
  if s.apiKeys.length = 0 then (none, s)
  else
    (some (s.apiKeys.getD s.currentKeyIndex ""),
     { s with currentKeyIndex := (s.currentKeyIndex + 1) % s.apiKeys.length })

/-- Outcome of one upstream ElevenLabs request with a given key. -/
inductive AttemptResult where
  | unauthorized401
  | quota429
  | thrown
  | httpResponse (ok : Bool)
  deriving DecidableEq, Repr

/-- Model of tryGenerateWithKey (text-to-speech/index.ts lines 152-187):
null on a 401 or 429 status and on a thrown fetch error, otherwise the
response with its ok flag. -/
def tryGenerateWithKey (outcome : String → AttemptResult) (k : String) :
    Option Bool :=
  match outcome k with
  | AttemptResult.unauthorized401 => none
  | AttemptResult.quota429 => none
  | AttemptResult.thrown => none
  | AttemptResult.httpResponse ok => some ok

/-- Model of the key-rotation retry loop of the serve handler
(text-to-speech/index.ts lines 230-248), recording the keys attempted: the
loop draws keys with getNextApiKey, breaks on the first ok response, and
otherwise runs for at most pool-size iterations. -/
def keyRetryLoop (outcome : String → AttemptResult) :
    KeyRotationState → Nat → List String
  | _, 0 => []
  | s, n + 1 =>
    match getNextApiKey s with
    | (none, _) => []
    | (some k, s2) =>
      match tryGenerateWithKey outcome k with
      | some true => [k]
      | _ => k :: keyRetryLoop outcome s2 n

/-- The same retry loop, recording the final value of the response variable
instead: null while no request returned, the first ok response when the
loop breaks, otherwise the last attempt response. -/
def keyRetryLoopResp (outcome : String → AttemptResult) :
    KeyRotationState → Nat → Option Bool
  | _, 0 => none
  | s, n + 1 =>
    match getNextApiKey s with
    | (none, _) => none
    | (some k, s2) =>
      match tryGenerateWithKey outcome k with
      | some true => some true
      | r => if n = 0 then r else keyRetryLoopResp outcome s2 n

/-- Enumerating a list by positions. -/
theorem map_getD_range {α : Type} (l : List α) (d : α) :
    (List.range l.length).map (fun i => l.getD i d) = l := by
  induction l with
  | nil => rfl
  | cons a t ih =>
    rw [List.length_cons, List.range_succ_eq_map, List.map_cons, List.map_map,
      List.getD_cons_zero]
    congr 1

/-- A take as an enumeration of the first positions. -/
theorem take_eq_map_getD_range {α : Type} (l : List α) (c : Nat) (d : α)
    (h : c ≤ l.length) :
    l.take c = (List.range c).map (fun i => l.getD i d) := by
  induction c generalizing l with
  | zero => simp
  | succ m ih =>
    cases l with
    | nil => simp at h
    | cons a t =>
      rw [List.take_succ_cons, List.range_succ_eq_map, List.map_cons,
        List.map_map, List.getD_cons_zero]
      congr 1
      rw [ih t (by simpa using h)]
      apply List.map_congr_left
      intro i _
      simp [Function.comp, List.getD_cons_succ]

/-- A drop as an enumeration of the remaining positions. -/
theorem drop_eq_map_getD_range {α : Type} (l : List α) (c : Nat) (d : α)
    (h : c ≤ l.length) :
    l.drop c = (List.range (l.length - c)).map (fun i => l.getD (c + i) d) := by
  induction c generalizing l with
  | zero => simpa using (map_getD_range l d).symm
  | succ m ih =>
    cases l with
    | nil => simp at h
    | cons a t =>
      rw [List.drop_succ_cons, ih t (by simpa using h)]
      have hlen : (a :: t).length - (m + 1) = t.length - m := by
        simp
      rw [hlen]
      apply List.map_congr_left
      intro i _
      have hidx : m + 1 + i = (m + i) + 1 := by omega
      rw [hidx, List.getD_cons_succ]

/-- Under total failure the retry loop enumerates the pool cyclically from
the cursor. -/
theorem keyRetryLoop_allFail (outcome : String → AttemptResult)
    (keys : List String) (hne : keys ≠ [])
    (hfail : ∀ k, tryGenerateWithKey outcome k = none) :
    ∀ n c, c < keys.length →
      keyRetryLoop outcome ⟨keys, c⟩ n
        = (List.range n).map (fun i => keys.getD ((c + i) % keys.length) "") := by
  intro n
  induction n with
  | zero => intro c _; rfl
  | succ m ih =>
    intro c hc
    have hlen : ¬ keys.length = 0 := by
      intro h0
      exact hne (List.length_eq_zero.mp h0)
    rw [keyRetryLoop, getNextApiKey]
    simp only [if_neg hlen, hfail]
    rw [ih ((c + 1) % keys.length) (Nat.mod_lt _ (by omega))]
    rw [List.range_succ_eq_map, List.map_cons, List.map_map]
    have hhead : (c + 0) % keys.length = c := by
      simp [Nat.mod_eq_of_lt hc]
    rw [hhead]
    congr 1
    apply List.map_congr_left
    intro i _
    simp only [Function.comp]
    rw [Nat.mod_add_mod]
    have hidx : c + 1 + i = c + Nat.succ i := by omega
    rw [hidx]

/-- Cyclic enumeration of the whole pool from any cursor position is a
permutation of the pool. -/
theorem mapRange_mod_perm (keys : List String) (c : Nat)
    (hc : c < keys.length) :
    List.Perm ((List.range keys.length).map
        (fun i => keys.getD ((c + i) % keys.length) "")) keys := by
  have hsplit : keys.length = (keys.length - c) + c := by omega
  have key_eq :
      (List.range keys.length).map
          (fun i => keys.getD ((c + i) % keys.length) "")
        = keys.drop c ++ keys.take c := by
    have hrange : List.range keys.length
        = List.range ((keys.length - c) + c) := by rw [← hsplit]
    rw [hrange, List.range_add, List.map_append]
    congr 1
    · rw [drop_eq_map_getD_range keys c "" (le_of_lt hc)]
      apply List.map_congr_left
      intro i hi
      have hi2 : i < keys.length - c := List.mem_range.mp hi
      rw [Nat.mod_eq_of_lt (by omega)]
    · rw [take_eq_map_getD_range keys c "" (le_of_lt hc), List.map_map]
      apply List.map_congr_left
      intro j hj
      have hj2 : j < c := List.mem_range.mp hj
      simp only [Function.comp]
      have h1 : c + (keys.length - c + j) = keys.length + j := by omega
      rw [h1, Nat.add_mod_left, Nat.mod_eq_of_lt (by omega)]
  rw [key_eq]
  exact (List.perm_append_comm).trans (List.Perm.of_eq (List.take_append_drop c keys))

/-- C3: when every attempt hits a 429 or 401, the retry loop started at any
in-range cursor draws a permutation of the key pool: each of the N
credentials is used exactly once before the handler reports failure. -/
theorem keyRotation_uses_each_key_once (keys : List String) (start : Nat)
    (outcome : String → AttemptResult) (hne : keys ≠ [])
    (hstart : start < keys.length)
    (hfail : ∀ k, outcome k = AttemptResult.quota429
      ∨ outcome k = AttemptResult.unauthorized401) :
    List.Perm (keyRetryLoop outcome ⟨keys, start⟩ keys.length) keys := by
  have hfail2 : ∀ k, tryGenerateWithKey outcome k = none := by
    intro k
    rcases hfail k with h | h <;> simp [tryGenerateWithKey, h]
  rw [keyRetryLoop_allFail outcome keys hne hfail2 keys.length start hstart]
  exact mapRange_mod_perm keys start hstart

/-- Witness for C3: a three-key pool starting at cursor 1 under constant
quota exhaustion tries a permutation of the pool. -/
theorem keyRotation_uses_each_key_once_witness :
    List.Perm (keyRetryLoop (fun _ => AttemptResult.quota429)
      ⟨["k1", "k2", "k3"], 1⟩ 3) ["k1", "k2", "k3"] :=
  keyRotation_uses_each_key_once ["k1", "k2", "k3"] 1
    (fun _ => AttemptResult.quota429) (by decide) (by decide)
    (fun _ => Or.inl rfl)

/-- Input-side shape of a POST body for the key-rotating TTS endpoint:
whether the text field is missing or trim-empty, and whether the text
becomes empty after emoji and markdown cleaning. -/
structure TtsRequest where
  textMissing : Bool
  cleanEmpty : Bool
  deriving DecidableEq, Repr

/-- Model of the serve handler of the key-rotating endpoint
(src/supabase/functions/text-to-speech/index.ts lines 189-310), reduced to
the HTTP status it answers on a POST: 400 for missing or empty text, 500
when no API key is configured, 400 when the cleaned text is empty, 204 when
the retry loop ends without an ok response, and 200 otherwise. -/
def elevenLabsServeStatus (req : TtsRequest) (keys : List String)
    (start : Nat) (outcome : String → AttemptResult) : Nat :=
  if req.textMissing then 400
  else if keys.length = 0 then 500
  else if req.cleanEmpty then 400
  else
    match keyRetryLoopResp outcome ⟨keys, start⟩ keys.length with
    | some true => 200
    | _ => 204

/-- Helper: when no key ever yields an ok response, neither does the retry
loop. -/
theorem keyRetryLoopResp_ne_true (outcome : String → AttemptResult)
    (hfail : ∀ k, tryGenerateWithKey outcome k ≠ some true) :
    ∀ n s, keyRetryLoopResp outcome s n ≠ some true := by
  intro n
  induction n with
  | zero => intro s; simp [keyRetryLoopResp]
  | succ m ih =>
    intro s
    rw [keyRetryLoopResp]
    rcases hg : getNextApiKey s with ⟨k?, s2⟩
    cases k? with
    | none => simp
    | some k =>
      simp only
      rcases ht : tryGenerateWithKey outcome k with _ | ok
      · simp only [ht]
        split_ifs <;> simp_all [ih s2]
      · cases ok with
        | true => exact absurd ht (hfail k)
        | false =>
          simp only [ht]
          split_ifs <;> simp_all [ih s2]

/-- C8: the key-rotating TTS endpoint answers 400 when the text field is
missing or empty, 500 when no provider credential is configured, and 204
No Content when every credential is exhausted, letting the caller fall
back silently. -/
theorem elevenLabsServeStatus_cases (req : TtsRequest) (keys : List String)
    (start : Nat) (outcome : String → AttemptResult) :
    (req.textMissing = true →
      elevenLabsServeStatus req keys start outcome = 400) ∧
    (req.textMissing = false → keys = [] →
      elevenLabsServeStatus req keys start outcome = 500) ∧
    (req.textMissing = false → req.cleanEmpty = false →
      (∀ k, tryGenerateWithKey outcome k ≠ some true) →
      keys ≠ [] →
      elevenLabsServeStatus req keys start outcome = 204) := by
  refine ⟨?_, ?_, ?_⟩
  · intro h
    simp [elevenLabsServeStatus, h]
  · intro h hkeys
    simp [elevenLabsServeStatus, h, hkeys]
  · intro h hclean hfail hkeys
    have hlen : ¬ keys.length = 0 := by
      intro h0
      exact hkeys (List.length_eq_zero.mp h0)
    have hresp := keyRetryLoopResp_ne_true outcome hfail keys.length
      ⟨keys, start⟩
    rcases hr : keyRetryLoopResp outcome ⟨keys, start⟩ keys.length with _ | ok
    · simp [elevenLabsServeStatus, h, hclean, hlen, hr]
    · cases ok with
      | true => exact absurd hr hresp
      | false => simp [elevenLabsServeStatus, h, hclean, hlen, hr]

/-- Witness for C8 at a concrete request, pool, and outcome map. -/
theorem elevenLabsServeStatus_cases_witness :
    elevenLabsServeStatus ⟨true, false⟩ ["k1"] 0
        (fun _ => AttemptResult.quota429) = 400 ∧
    elevenLabsServeStatus ⟨false, false⟩ [] 0
        (fun _ => AttemptResult.quota429) = 500 ∧
    elevenLabsServeStatus ⟨false, false⟩ ["k1"] 0
        (fun _ => AttemptResult.quota429) = 204 :=
  ⟨(elevenLabsServeStatus_cases ⟨true, false⟩ ["k1"] 0 _).1 rfl,
   (elevenLabsServeStatus_cases ⟨false, false⟩ [] 0 _).2.1 rfl rfl,
   (elevenLabsServeStatus_cases ⟨false, false⟩ ["k1"] 0 _).2.2 rfl rfl
     (fun k => by simp [tryGenerateWithKey]) (by decide)⟩

/-- One stop as returned by the SPTrans stop search
(src/unnamed/part_001): code, name, address and coordinates. -/
structure Parada where
  cp : Nat
  np : String
  ed : String
  py : JsNumber
  px : JsNumber
  deriving DecidableEq

/-- One nearby stop produced by buscarParadasProximas, with its rounded
distance from the query point in meters. -/
structure ParadaProxima where
  codigoParada : Nat
  nome : String
  endereco : String
  latitude : JsNumber
  longitude : JsNumber
  distancia : Int
  deriving DecidableEq

/-- Comparison of an integer distance against a radius value.  With a
positive denominator this is the JavaScript comparison distancia <= raio. -/
def jsIntLe (n : Int) (b : JsNumber) : Bool :=
  decide ((n * b.den : Int) ≤ b.num)

/-- The record built for one stop inside buscarParadasProximas: the stop
fields plus the rounded distance from the query point. -/
def paradaProximaOf (dist : JsNumber → JsNumber → JsNumber → JsNumber → JsNumber)
    (lat lng : JsNumber) (p : Parada) : ParadaProxima :=
  { codigoParada := p.cp, nome := p.np, endereco := p.ed,
    latitude := p.py, longitude := p.px,
    distancia := jsRound (dist lat lng p.py p.px) }

/-- Model of buscarParadasProximas (src/unnamed/part_001 lines 148-180):
map each stop to its record with the rounded Haversine distance, keep those
within the radius, sort ascending by distance (the source passes the
numeric comparator a.distancia - b.distancia) and keep the first 20.  The
Haversine computation calculateDistance (lines 294-304) uses trigonometric
functions on floats and enters the claims only through its rounded value,
so it is abstracted as the function parameter dist. -/
def buscarParadasProximas
    (dist : JsNumber → JsNumber → JsNumber → JsNumber → JsNumber)
    (lat lng : JsNumber) (raio : JsNumber) (data : List Parada) :
    List ParadaProxima :=
  data.map (paradaProximaOf dist lat lng)
    |>.filter (fun p => jsIntLe p.distancia raio)
    |>.mergeSort (fun a b => decide (a.distancia ≤ b.distancia))
    |>.take 20

/-- C10: the nearby-stop lookup returns at most 20 stops, every returned
stop has rounded distance at most the radius, and the result is sorted in
nondecreasing distance order. -/
theorem buscarParadasProximas_spec
    (dist : JsNumber → JsNumber → JsNumber → JsNumber → JsNumber)
    (lat lng raio : JsNumber) (data : List Parada) :
    (buscarParadasProximas dist lat lng raio data).length ≤ 20 ∧
    (∀ p ∈ buscarParadasProximas dist lat lng raio data,
      jsIntLe p.distancia raio = true) ∧
    List.Pairwise (fun a b => a.distancia ≤ b.distancia)
      (buscarParadasProximas dist lat lng raio data) := by
  refine ⟨?_, ?_, ?_⟩
  · exact List.length_take_le 20 _
  · intro p hp
    have hp2 : p ∈ (data.map (paradaProximaOf dist lat lng)
        |>.filter (fun p => jsIntLe p.distancia raio)
        |>.mergeSort (fun a b => decide (a.distancia ≤ b.distancia))) :=
      (List.take_sublist 20 _).subset hp
    have hp3 := (List.mergeSort_perm
      (data.map (paradaProximaOf dist lat lng)
        |>.filter (fun p => jsIntLe p.distancia raio))
      (fun a b : ParadaProxima => decide (a.distancia ≤ b.distancia))).subset hp2
    exact (List.mem_filter.mp hp3).2
  · have htrans : ∀ a b c : ParadaProxima,
        (decide (a.distancia ≤ b.distancia)) = true →
        (decide (b.distancia ≤ c.distancia)) = true →
        (decide (a.distancia ≤ c.distancia)) = true := by
      intro a b c hab hbc
      simp only [decide_eq_true_eq] at *
      exact le_trans hab hbc
    have htotal : ∀ a b : ParadaProxima,
        ((decide (a.distancia ≤ b.distancia))
          || (decide (b.distancia ≤ a.distancia))) = true := by
      intro a b
      simp only [Bool.or_eq_true, decide_eq_true_eq]
      exact le_total _ _
    have hs := List.sorted_mergeSort htrans htotal
      (data.map (paradaProximaOf dist lat lng)
        |>.filter (fun p => jsIntLe p.distancia raio))
    have hs2 := List.Pairwise.sublist (List.take_sublist 20 _) hs
    exact hs2.imp (fun h => of_decide_eq_true h)

/-- ASCII digit test, the regex class backslash-d. -/
def isDigitChar (c : Char) : Bool := '0' ≤ c && c ≤ '9'

/-- JavaScript whitespace, used both for the regex class backslash-s and
for String.prototype.trim. -/
def isJsSpace (c : Char) : Bool :=
  c = ' ' || c = '\t' || c = '\n' || c = '\x0d' || c = '\x0b' || c = '\x0c'
    || c = Char.ofNat 0xA0 || c = Char.ofNat 0xFEFF

/-- Lowercasing of ASCII letters, for the case-insensitive regex flag. -/
def lowerAscii (c : Char) : Char :=
  if 'A' ≤ c && c ≤ 'Z' then Char.ofNat (c.toNat + 32) else c

/-- Value of a digit string, most significant first. -/
def digitsToNat (l : List Char) : Nat :=
  l.foldl (fun acc c => acc * 10 + (c.toNat - 48)) 0

/-- Model of String.prototype.replace of all dots by the empty string. -/
def stripDots (l : List Char) : List Char := l.filter (fun c => c ≠ '.')

/-- Model of String.prototype.replace of the first comma by a dot. -/
def replaceFirstComma : List Char → List Char
  | [] => []
  | c :: r => if c = ',' then '.' :: r else c :: replaceFirstComma r

/-- Model of parseFloat on the plain decimal numerals produced by the
currency matchers (digits with an optional dot and fraction digits), read
exactly as an unreduced rational. -/
def parseFloatDigits (l : List Char) : JsNumber :=
  let intPart := l.takeWhile (fun c => c ≠ '.')
  let rest := l.dropWhile (fun c => c ≠ '.')
  let fracPart := match rest with
    | '.' :: f => f
    | _ => []
  ⟨(digitsToNat intPart * 10 ^ fracPart.length + digitsToNat fracPart : Nat),
   10 ^ fracPart.length⟩

/-- Model of formatNumberAsCurrency (src/unnamed/part_003 lines 83-113):
spell a number as digits plus the accented currency words.  A zero
denominator plays the role of NaN. -/
def formatNumberAsCurrency (value : JsNumber) : String :=
  if value.den = 0 then ""
  else
    let intPart : Int := jsFloor value
    let decPart : Int :=
      jsRound (jsMul (jsSub value (jsOfInt intPart)) (jsOfInt 100))
    let result :=
      if intPart = 0 && 0 < decPart then ""
      else if intPart = 1 then "um reál"
      else toString intPart.toNat ++ " reáis"
    let result :=
      if 0 < decPart then
        (if result = "" then result else result ++ " e ")
          ++ (if decPart = 1 then "um centavo"
              else toString decPart.toNat ++ " centavos")
      else result
    if result = "" then "zero reáis" else result

/-- One global regex replacement pass, scanning left to right.  A matcher
answers, for the remaining input, the replacement characters and the
consumed length minus one; the scan restarts after the consumed span.  The
fuel argument only makes the recursion structural: the scan consumes at
least one character per step, so fuel equal to the input length is always
sufficient. -/
def replaceScan (m : List Char → Option (List Char × Nat)) :
    Nat → List Char → List Char
  | 0, l => l
  | _ + 1, [] => []
  | fuel + 1, c :: rest =>
    match m (c :: rest) with
    | some (rep, k) => rep ++ replaceScan m fuel (rest.drop k)
    | none => c :: replaceScan m fuel rest

/-- Run one replacement pass over a whole character list. -/
def applyReplace (m : List Char → Option (List Char × Nat))
    (l : List Char) : List Char :=
  replaceScan m l.length l

/-- Greedy match of the regex piece (backslash-dot then three digits)
star: as many dot-plus-three-digit groups as possible. -/
def matchDotTriples : List Char → List Char × List Char
  | '.' :: a :: b :: c :: rest =>
    if isDigitChar a && isDigitChar b && isDigitChar c then
      let r := matchDotTriples rest
      ('.' :: a :: b :: c :: r.1, r.2)
    else ([], '.' :: a :: b :: c :: rest)
  | l => ([], l)

/-- Optional match of a comma followed by exactly two digits. -/
def matchCommaPair : List Char → List Char × List Char
  | ',' :: a :: b :: rest =>
    if isDigitChar a && isDigitChar b then ([',', a, b], rest)
    else ([], ',' :: a :: b :: rest)
  | l => ([], l)

/-- Case-insensitive match of the literal reais. -/
def matchReaisCI : List Char → Bool
  | r :: e :: a :: i :: s :: _ =>
    lowerAscii r = 'r' && lowerAscii e = 'e' && lowerAscii a = 'a'
      && lowerAscii i = 'i' && lowerAscii s = 's'
  | _ => false

/-- Take up to three leading digits (greedy d-one-to-three). -/
def takeUpTo3Digits (l : List Char) : List Char × List Char :=
  match l with
  | a :: b :: c :: rest =>
    if isDigitChar a then
      if isDigitChar b then
        if isDigitChar c then ([a, b, c], rest)
        else ([a, b], c :: rest)
      else ([a], b :: c :: rest)
    else ([], l)
  | a :: b :: rest =>
    if isDigitChar a then
      if isDigitChar b then ([a, b], rest) else ([a], b :: rest)
    else ([], l)
  | a :: rest =>
    if isDigitChar a then ([a], rest) else ([], l)
  | [] => ([], [])

/-- Matcher for the first currency pattern of formatCurrencyForSpeech
(src/unnamed/part_003 lines 59-62): R-dollar, optional spaces, one to
three digits, dot-separated thousands groups, and an optional comma with
two decimal digits; the Brazilian-format capture is converted by dropping
dots, turning the comma into a dot, and reading it with parseFloat. -/
def p1Match (l : List Char) : Option (List Char × Nat) :=
  match l with
  | 'R' :: '$' :: rest =>
    let sp := rest.takeWhile isJsSpace
    let r1 := rest.dropWhile isJsSpace
    let ds := takeUpTo3Digits r1
    if ds.1 = [] then none
    else
      let dots := matchDotTriples ds.2
      let cp := matchCommaPair dots.2
      let value := ds.1 ++ dots.1 ++ cp.1
      some ((formatNumberAsCurrency (parseFloatDigits
          (replaceFirstComma (stripDots value)))).data,
        2 + sp.length + value.length - 1)
  | _ => none

/-- One backtracking alternative of the second currency pattern: exactly k
leading digits, then thousands groups, a comma with two digits, optional
spaces and the word reais. -/
def p2TryK (k : Nat) (l : List Char) : Option (List Char × Nat) :=
  let ds := l.take k
  if ds.length = k && ds.all isDigitChar then
    let dots := matchDotTriples (l.drop k)
    match dots.2 with
    | ',' :: a :: b :: r3 =>
      if isDigitChar a && isDigitChar b then
        let sp := r3.takeWhile isJsSpace
        let r4 := r3.dropWhile isJsSpace
        if matchReaisCI r4 then
          some ((formatNumberAsCurrency (parseFloatDigits
              (stripDots (ds ++ dots.1) ++ '.' :: [a, b]))).data,
            k + dots.1.length + 3 + sp.length + 5 - 1)
        else none
      else none
    | _ => none
  else none

/-- Matcher for the second currency pattern (src/unnamed/part_003 lines
64-67): a Brazilian decimal amount followed by the word reais.  The greedy
one-to-three digit group backtracks from three digits down to one. -/
def p2Match (l : List Char) : Option (List Char × Nat) :=
  match p2TryK 3 l with
  | some r => some r
  | none =>
    match p2TryK 2 l with
    | some r => some r
    | none => p2TryK 1 l

/-- Matcher for the third currency pattern (src/unnamed/part_003 lines
69-72): digits with an optional dot fraction of one or two digits,
optional spaces and the word reais; the fraction backtracks from two
digits to one to none. -/
def p3Match (l : List Char) : Option (List Char × Nat) :=
  let ds := l.takeWhile isDigitChar
  if ds = [] then none
  else
    let rest := l.drop ds.length
    let tryTail := fun (frac : List Char) (r : List Char) =>
      let sp := r.takeWhile isJsSpace
      let r2 := r.dropWhile isJsSpace
      if matchReaisCI r2 then
        let value := ds ++ frac
        some ((formatNumberAsCurrency (parseFloatDigits
            (replaceFirstComma value))).data,
          value.length + sp.length + 5 - 1)
      else none
    match rest with
    | '.' :: a :: b :: r =>
      if isDigitChar a && isDigitChar b then
        match tryTail ['.', a, b] r with
        | some res => some res
        | none =>
          match tryTail ['.', a] (b :: r) with
          | some res => some res
          | none => tryTail [] rest
      else if isDigitChar a then
        match tryTail ['.', a] (b :: r) with
        | some res => some res
        | none => tryTail [] rest
      else tryTail [] rest
    | '.' :: a :: r =>
      if isDigitChar a then
        match tryTail ['.', a] r with
        | some res => some res
        | none => tryTail [] rest
      else tryTail [] rest
    | _ => tryTail [] rest

/-- Matcher for the fourth currency pattern (src/unnamed/part_003 lines
74-77): R-dollar, optional spaces, digits and an optional dot or comma
fraction of one or two digits.  Nothing follows the greedy fraction, so no
backtracking is needed. -/
def p4Match (l : List Char) : Option (List Char × Nat) :=
  match l with
  | 'R' :: '$' :: rest =>
    let sp := rest.takeWhile isJsSpace
    let r1 := rest.dropWhile isJsSpace
    let ds := r1.takeWhile isDigitChar
    if ds = [] then none
    else
      let r2 := r1.drop ds.length
      let frac :=
        match r2 with
        | s :: a :: b :: _ =>
          if (s = '.' || s = ',') && isDigitChar a then
            if isDigitChar b then [s, a, b] else [s, a]
          else []
        | s :: a :: _ =>
          if (s = '.' || s = ',') && isDigitChar a then [s, a] else []
        | _ => []
      let value := ds ++ frac
      some ((formatNumberAsCurrency (parseFloatDigits
          (replaceFirstComma value))).data,
        2 + sp.length + value.length - 1)
  | _ => none

/-- Model of formatCurrencyForSpeech (src/unnamed/part_003 lines 56-78):
the four global regex replacement passes in source order. -/
def formatCurrencyForSpeech (s : String) : String :=
  String.mk (applyReplace p4Match (applyReplace p3Match
    (applyReplace p2Match (applyReplace p1Match s.data))))

/-- The three emoji code point ranges stripped by cleanTextForTts
(src/unnamed/part_003 line 123). -/
def isEmojiRangeChar (c : Char) : Bool :=
  (0x1F300 ≤ c.toNat && c.toNat ≤ 0x1F9FF)
    || (0x2600 ≤ c.toNat && c.toNat ≤ 0x26FF)
    || (0x2700 ≤ c.toNat && c.toNat ≤ 0x27BF)

/-- Strip the emoji ranges (the first replace of cleanTextForTts). -/
def stripEmojiRanges (l : List Char) : List Char :=
  l.filter (fun c => !isEmojiRangeChar c)

/-- Remove every double-star markdown emphasis marker, scanning left to
right (the second replace of cleanTextForTts). -/
def removeDoubleStar : List Char → List Char
  | [] => []
  | [c] => [c]
  | c :: d :: rest =>
    if c = '*' && d = '*' then removeDoubleStar rest
    else c :: removeDoubleStar (d :: rest)

/-- The explicit emoji alternation of the third replace of cleanTextForTts
(src/unnamed/part_003 line 125), as code point sequences in source order. -/
def emojiListSeqs : List (List Char) :=
  [[Char.ofNat 0x1F4B8],
   [Char.ofNat 0x1F4B0],
   [Char.ofNat 0x1F4CA],
   [Char.ofNat 0x1F4C8],
   [Char.ofNat 0x1F4C9],
   [Char.ofNat 0x1F4C5],
   [Char.ofNat 0x1F4CC],
   [Char.ofNat 0x1F3C6],
   [Char.ofNat 0x1F624],
   [Char.ofNat 0x1F612],
   [Char.ofNat 0x1F921],
   [Char.ofNat 0x1F631],
   [Char.ofNat 0x1F62D],
   [Char.ofNat 0x1F525],
   [Char.ofNat 0x1F480],
   [Char.ofNat 0x1F389],
   [Char.ofNat 0x1F64F],
   [Char.ofNat 0x1F4AA],
   [Char.ofNat 0x1F4B5],
   [Char.ofNat 0x1F6A8],
   [Char.ofNat 0x1F610],
   [Char.ofNat 0x1F494],
   [Char.ofNat 0x1F629],
   [Char.ofNat 0x1F32A, Char.ofNat 0xFE0F],
   [Char.ofNat 0x2615],
   [Char.ofNat 0x1F355],
   [Char.ofNat 0x1F3E5],
   [Char.ofNat 0x1F6B2],
   [Char.ofNat 0x1F309],
   [Char.ofNat 0x1F630],
   [Char.ofNat 0x1F38A],
   [Char.ofNat 0x1F4B3],
   [Char.ofNat 0x1F644],
   [Char.ofNat 0x1F440],
   [Char.ofNat 0x270D, Char.ofNat 0xFE0F],
   [Char.ofNat 0x1F914],
   [Char.ofNat 0x1F605]]

/-- Whether a sequence starts the given character list. -/
def matchSeq : List Char → List Char → Bool
  | [], _ => true
  | s :: ss, c :: cs => s = c && matchSeq ss cs
  | _ :: _, [] => false

/-- Matcher for the emoji alternation: the first alternative that starts
the input wins and is replaced by nothing. -/
def emojiListMatch (l : List Char) : Option (List Char × Nat) :=
  (emojiListSeqs.find? (fun sq => matchSeq sq l)).map
    (fun sq => ([], sq.length - 1))

/-- Remove the listed emoji (the third replace of cleanTextForTts). -/
def removeEmojiList (l : List Char) : List Char :=
  applyReplace emojiListMatch l

/-- Collapse every newline run into a dot and a space (the fourth replace
of cleanTextForTts).  The flag records whether the previous character was
part of a newline run. -/
def collapseNewlinesGo (prevNl : Bool) : List Char → List Char
  | [] => []
  | c :: rest =>
    if c = '\n' then
      if prevNl then collapseNewlinesGo true rest
      else '.' :: ' ' :: collapseNewlinesGo true rest
    else c :: collapseNewlinesGo false rest

/-- Collapse newline runs over a whole list. -/
def collapseNewlines (l : List Char) : List Char := collapseNewlinesGo false l

/-- Model of String.prototype.trim: drop JavaScript whitespace from both
ends. -/
def trimJs (l : List Char) : List Char :=
  ((l.dropWhile isJsSpace).reverse.dropWhile isJsSpace).reverse

/-- The cleaning stage of cleanTextForTts: everything after the currency
formatting, in source order. -/
def ttsCleanup (l : List Char) : List Char :=
  trimJs (collapseNewlines (removeEmojiList (removeDoubleStar
    (stripEmojiRanges l))))

/-- Model of cleanTextForTts (src/unnamed/part_003 lines 118-128): format
currency values, then strip emoji and markdown, collapse newlines and
trim. -/
def cleanTextForTts (s : String) : String :=
  let cleanedText := formatCurrencyForSpeech s
  String.mk (ttsCleanup cleanedText.data)

example : cleanTextForTts "R**$ 5" = "R$ 5" := by decide

example : cleanTextForTts "R$ 5" = "5 reáis" := by decide

example : formatCurrencyForSpeech "R$ 1.234,56" =
    "1234 reáis e 56 centavos" := by decide

example : cleanTextForTts "Saldo: R$ 10,50!" =
    "Saldo: 10 reáis e 50 centavos!" := by decide

/-- C4 counterexample: cleanTextForTts is not idempotent.  Markdown
stripping exposes a fresh currency expression, so the first pass returns
R-dollar-5 and only the second pass rewrites it into words. -/
theorem cleanTextForTts_not_idempotent :
    cleanTextForTts (cleanTextForTts "R**$ 5") ≠ cleanTextForTts "R**$ 5" ∧
    cleanTextForTts "R**$ 5" = "R$ 5" ∧
    cleanTextForTts (cleanTextForTts "R**$ 5") = "5 reáis" := by
  decide

/-- Adjacent characters are never both stars. -/
def NoStarPair (l : List Char) : Prop :=
  List.Chain' (fun a b => ¬(a = '*' ∧ b = '*')) l

/-- Characters of the star removal come from its input. -/
theorem mem_removeDoubleStar {c : Char} :
    ∀ {l : List Char}, c ∈ removeDoubleStar l → c ∈ l := by
  intro l
  induction l using removeDoubleStar.induct with
  | case1 => simp [removeDoubleStar]
  | case2 d => simp [removeDoubleStar]
  | case3 a b rest hab ih =>
    rw [removeDoubleStar, if_pos hab]
    intro h
    exact List.mem_cons_of_mem _ (List.mem_cons_of_mem _ (ih h))
  | case4 a b rest hab ih =>
    rw [removeDoubleStar, if_neg hab]
    intro h
    rcases List.mem_cons.mp h with h1 | h2
    · exact h1 ▸ List.mem_cons_self _ _
    · exact List.mem_cons_of_mem _ (ih h2)

/-- Head of the star removal on a list with a non-star head. -/
theorem head_removeDoubleStar (d : Char) (rest : List Char) (hd : ¬ d = '*') :
    (removeDoubleStar (d :: rest)).head? = some d := by
  cases rest with
  | nil => rfl
  | cons e r =>
    rw [removeDoubleStar, if_neg (by simp [hd])]
    rfl

/-- The star removal never leaves two adjacent stars. -/
theorem removeDoubleStar_noStarPair :
    ∀ l : List Char, NoStarPair (removeDoubleStar l) := by
  intro l
  induction l using removeDoubleStar.induct with
  | case1 => simp [removeDoubleStar, NoStarPair]
  | case2 d => simp [removeDoubleStar, NoStarPair]
  | case3 a b rest hab ih =>
    rw [removeDoubleStar, if_pos hab]
    exact ih
  | case4 a b rest hab ih =>
    rw [removeDoubleStar, if_neg hab]
    rw [NoStarPair, List.chain'_cons']
    refine ⟨?_, ih⟩
    intro h hh
    by_cases ha : a = '*'
    · have hb : ¬ b = '*' := by
        intro hb
        apply hab
        simp [ha, hb]
      rw [head_removeDoubleStar b rest hb] at hh
      cases hh
      intro hcon
      exact hb hcon.2
    · intro hcon
      exact ha hcon.1

/-- On a list without adjacent stars the star removal is the identity. -/
theorem removeDoubleStar_id_of_noStarPair :
    ∀ l : List Char, NoStarPair l → removeDoubleStar l = l := by
  intro l
  induction l using removeDoubleStar.induct with
  | case1 => intro _; rfl
  | case2 d => intro _; rfl
  | case3 a b rest hab ih =>
    intro h
    rw [NoStarPair, List.chain'_cons'] at h
    have hP : a = '*' ∧ b = '*' := by
      simp only [Bool.and_eq_true, decide_eq_true_eq] at hab
      exact hab
    exact absurd hP (h.1 b rfl)
  | case4 a b rest hab ih =>
    intro h
    rw [removeDoubleStar, if_neg hab]
    rw [NoStarPair, List.chain'_cons'] at h
    rw [ih h.2]

/-- The emoji matcher only ever replaces by the empty list. -/
theorem emojiListMatch_rep_nil {l rep : List Char} {k : Nat}
    (h : emojiListMatch l = some (rep, k)) : rep = [] := by
  unfold emojiListMatch at h
  rcases hf : emojiListSeqs.find? (fun sq => matchSeq sq l) with _ | sq <;>
    rw [hf] at h
  · simp at h
  · simp at h
    exact h.1

/-- Characters of a replacement pass with empty replacements come from the
input. -/
theorem mem_replaceScan_of_rep_nil
    (m : List Char → Option (List Char × Nat))
    (hm : ∀ l rep k, m l = some (rep, k) → rep = []) :
    ∀ (fuel : Nat) (l : List Char) (c : Char),
      c ∈ replaceScan m fuel l → c ∈ l := by
  intro fuel
  induction fuel with
  | zero => intro l c h; exact h
  | succ f ih =>
    intro l c h
    cases l with
    | nil => simp [replaceScan] at h
    | cons a rest =>
      rw [replaceScan] at h
      rcases hm2 : m (a :: rest) with _ | ⟨rep, k⟩
      · rw [hm2] at h
        rcases List.mem_cons.mp h with h1 | h2
        · exact h1 ▸ List.mem_cons_self _ _
        · exact List.mem_cons_of_mem _ (ih rest c h2)
      · rw [hm2] at h
        have hrep := hm _ _ _ hm2
        subst hrep
        simp only [List.nil_append] at h
        have h2 := ih _ c h
        exact List.mem_cons_of_mem _ (List.drop_subset _ _ h2)

/-- Characters of the emoji removal come from its input. -/
theorem mem_removeEmojiList {c : Char} {l : List Char}
    (h : c ∈ removeEmojiList l) : c ∈ l :=
  mem_replaceScan_of_rep_nil emojiListMatch
    (fun _ _ _ hh => emojiListMatch_rep_nil hh) l.length l c h

/-- Every alternative of the emoji list is nonempty and starts with a
character of the stripped emoji ranges. -/
theorem emojiListSeqs_head_range :
    emojiListSeqs.all (fun sq =>
      match sq with
      | [] => false
      | s :: _ => isEmojiRangeChar s) = true := by
  decide

/-- On input without emoji-range characters the emoji matcher never
fires. -/
theorem emojiListMatch_none {l : List Char}
    (h : ∀ c ∈ l, isEmojiRangeChar c = false) : emojiListMatch l = none := by
  unfold emojiListMatch
  rw [List.find?_eq_none.mpr]
  · rfl
  · intro sq hsq hmatch
    have hsq2 := List.all_eq_true.mp emojiListSeqs_head_range sq hsq
    cases sq with
    | nil => simp at hsq2
    | cons s ss =>
      cases l with
      | nil => simp [matchSeq] at hmatch
      | cons c cs =>
        rw [matchSeq, Bool.and_eq_true] at hmatch
        have hc := h c (List.mem_cons_self _ _)
        have hsc : s = c := by simpa using hmatch.1
        rw [hsc] at hsq2
        simp only at hsq2
        simp [hc] at hsq2

/-- On input without emoji-range characters the emoji removal is the
identity. -/
theorem removeEmojiList_id {l : List Char}
    (h : ∀ c ∈ l, isEmojiRangeChar c = false) : removeEmojiList l = l := by
  unfold removeEmojiList applyReplace
  generalize l.length = fuel
  induction fuel generalizing l with
  | zero => rfl
  | succ f ih =>
    cases l with
    | nil => rfl
    | cons a rest =>
      rw [replaceScan, emojiListMatch_none h]
      have : replaceScan emojiListMatch f rest = rest :=
        ih (fun c hc => h c (List.mem_cons_of_mem _ hc))
      rw [this]

/-- Characters of the newline collapse come from its input or are the
inserted dot and space. -/
theorem mem_collapseNewlinesGo {c : Char} :
    ∀ (l : List Char) (b : Bool), c ∈ collapseNewlinesGo b l →
      c ∈ l ∨ c = '.' ∨ c = ' ' := by
  intro l
  induction l with
  | nil => intro b h; simp [collapseNewlinesGo] at h
  | cons a rest ih =>
    intro b h
    rw [collapseNewlinesGo] at h
    by_cases ha : a = '\n'
    · rw [if_pos ha] at h
      cases b with
      | true =>
        rw [if_pos rfl] at h
        rcases ih true h with h1 | h2
        · exact Or.inl (List.mem_cons_of_mem _ h1)
        · exact Or.inr h2
      | false =>
        rw [if_neg Bool.false_ne_true] at h
        rcases List.mem_cons.mp h with h1 | h
        · exact Or.inr (Or.inl h1)
        · rcases List.mem_cons.mp h with h1 | h
          · exact Or.inr (Or.inr h1)
          · rcases ih true h with h1 | h2
            · exact Or.inl (List.mem_cons_of_mem _ h1)
            · exact Or.inr h2
    · rw [if_neg ha] at h
      rcases List.mem_cons.mp h with h1 | h2
      · exact Or.inl (h1 ▸ List.mem_cons_self _ _)
      · rcases ih false h2 with h1 | h2
        · exact Or.inl (List.mem_cons_of_mem _ h1)
        · exact Or.inr h2

/-- The newline collapse output contains no newline. -/
theorem collapseNewlinesGo_no_newline {c : Char} :
    ∀ (l : List Char) (b : Bool), c ∈ collapseNewlinesGo b l → ¬ c = '\n' := by
  intro l
  induction l with
  | nil => intro b h; simp [collapseNewlinesGo] at h
  | cons a rest ih =>
    intro b h
    rw [collapseNewlinesGo] at h
    by_cases ha : a = '\n'
    · rw [if_pos ha] at h
      cases b with
      | true => exact ih true h
      | false =>
        rw [if_neg Bool.false_ne_true] at h
        rcases List.mem_cons.mp h with h1 | h
        · simp [h1]
        · rcases List.mem_cons.mp h with h1 | h
          · simp [h1]
          · exact ih true h
    · rw [if_neg ha] at h
      rcases List.mem_cons.mp h with h1 | h2
      · exact h1 ▸ ha
      · exact ih false h2

/-- On newline-free input the newline collapse is the identity. -/
theorem collapseNewlinesGo_id {l : List Char}
    (h : ∀ c ∈ l, ¬ c = '\n') : ∀ b : Bool, collapseNewlinesGo b l = l := by
  induction l with
  | nil => intro b; rfl
  | cons a rest ih =>
    intro b
    rw [collapseNewlinesGo, if_neg (h a (List.mem_cons_self _ _))]
    rw [ih (fun c hc => h c (List.mem_cons_of_mem _ hc)) false]

/-- Head of the newline collapse outside a run: the input head, or the
inserted dot. -/
theorem collapseNewlinesGo_head (l : List Char) (h : Char)
    (hh : (collapseNewlinesGo false l).head? = some h) :
    l.head? = some h ∨ h = '.' := by
  cases l with
  | nil => simp [collapseNewlinesGo] at hh
  | cons a rest =>
    rw [collapseNewlinesGo] at hh
    by_cases ha : a = '\n'
    · rw [if_pos ha] at hh
      rw [if_neg Bool.false_ne_true] at hh
      simp only [List.head?_cons, Option.some.injEq] at hh
      exact Or.inr hh.symm
    · rw [if_neg ha] at hh
      simp only [List.head?_cons, Option.some.injEq] at hh
      exact Or.inl (by simp [hh])

/-- The newline collapse preserves freedom from adjacent stars. -/
theorem collapseNewlinesGo_noStarPair :
    ∀ (l : List Char), NoStarPair l →
      ∀ b : Bool, NoStarPair (collapseNewlinesGo b l) := by
  intro l
  induction l with
  | nil => intro _ b; simp [collapseNewlinesGo, NoStarPair]
  | cons a rest ih =>
    intro h b
    rw [NoStarPair, List.chain'_cons'] at h
    rw [collapseNewlinesGo]
    by_cases ha : a = '\n'
    · rw [if_pos ha]
      cases b with
      | true => exact ih h.2 true
      | false =>
        rw [if_neg Bool.false_ne_true]
        rw [NoStarPair, List.chain'_cons', List.chain'_cons']
        refine ⟨by simp, by simp, ih h.2 true⟩
    · rw [if_neg ha]
      rw [NoStarPair, List.chain'_cons']
      refine ⟨?_, ih h.2 false⟩
      intro y hy
      rcases collapseNewlinesGo_head rest y hy with h1 | h2
      · exact h.1 y h1
      · simp [h2]

/-- The head surviving a dropWhile fails the predicate. -/
theorem dropWhile_head_false {p : Char → Bool} :
    ∀ (l : List Char) (h : Char), (l.dropWhile p).head? = some h →
      p h = false := by
  intro l
  induction l with
  | nil => intro h hh; simp [List.dropWhile] at hh
  | cons a rest ih =>
    intro h hh
    rw [List.dropWhile_cons] at hh
    by_cases ha : p a
    · rw [if_pos ha] at hh
      exact ih h hh
    · rw [if_neg ha] at hh
      simp only [List.head?_cons, Option.some.injEq] at hh
      rw [← hh]
      exact Bool.of_not_eq_true ha

/-- Dropping twice drops once. -/
theorem dropWhile_dropWhile {p : Char → Bool} (l : List Char) :
    (l.dropWhile p).dropWhile p = l.dropWhile p := by
  rcases hd : l.dropWhile p with _ | ⟨h, t⟩
  · rfl
  · have hp : p h = false := dropWhile_head_false l h (by rw [hd]; rfl)
    rw [List.dropWhile_cons, hp]
    simp

/-- A list splits as its right trim plus trailing whitespace. -/
theorem trimRight_append (p : Char → Bool) (l : List Char) :
    l = (l.reverse.dropWhile p).reverse ++ (l.reverse.takeWhile p).reverse := by
  have h := List.takeWhile_append_dropWhile p l.reverse
  calc l = l.reverse.reverse := (List.reverse_reverse l).symm
    _ = (List.takeWhile p l.reverse ++ List.dropWhile p l.reverse).reverse := by
        rw [h]
    _ = (l.reverse.dropWhile p).reverse ++ (l.reverse.takeWhile p).reverse := by
        rw [List.reverse_append]

/-- Trimming is idempotent. -/
theorem trimJs_idempotent (l : List Char) : trimJs (trimJs l) = trimJs l := by
  unfold trimJs
  have h1 : ((((l.dropWhile isJsSpace).reverse.dropWhile isJsSpace).reverse).dropWhile
      isJsSpace) = ((l.dropWhile isJsSpace).reverse.dropWhile isJsSpace).reverse := by
    rcases hb : ((l.dropWhile isJsSpace).reverse.dropWhile isJsSpace).reverse
      with _ | ⟨h, t⟩
    · rfl
    · have hsplit := trimRight_append isJsSpace (l.dropWhile isJsSpace)
      rw [hb] at hsplit
      have hhead : (l.dropWhile isJsSpace).head? = some h := by
        rw [hsplit]
        rfl
      have hp : isJsSpace h = false := dropWhile_head_false l h hhead
      rw [List.dropWhile_cons, hp]
      simp
  rw [h1, List.reverse_reverse, dropWhile_dropWhile]

/-- Characters of the trim come from its input. -/
theorem mem_trimJs {c : Char} {l : List Char} (h : c ∈ trimJs l) : c ∈ l := by
  unfold trimJs at h
  rw [List.mem_reverse] at h
  have h2 := (List.dropWhile_sublist _).subset h
  rw [List.mem_reverse] at h2
  exact (List.dropWhile_sublist _).subset h2

/-- The trim of a list without adjacent stars has no adjacent stars. -/
theorem trimJs_noStarPair {l : List Char} (h : NoStarPair l) :
    NoStarPair (trimJs l) := by
  have hsymm : ∀ {x : List Char}, NoStarPair x → NoStarPair x.reverse := by
    intro x hx
    rw [NoStarPair, List.chain'_reverse]
    exact hx.imp (fun a b hab h2 => hab ⟨h2.2, h2.1⟩)
  have hdrop : ∀ {x : List Char}, NoStarPair x →
      NoStarPair (x.dropWhile isJsSpace) := by
    intro x
    induction x with
    | nil => intro hx; exact hx
    | cons a rest ih =>
      intro hx
      rw [List.dropWhile_cons]
      by_cases ha : isJsSpace a
      · rw [if_pos ha]
        exact ih (List.Chain'.tail hx)
      · rw [if_neg ha]
        exact hx
  exact hsymm (hdrop (hsymm (hdrop h)))

/-- C4 amended: the cleaning stage of cleanTextForTts (emoji-range strip,
markdown-marker removal, listed-emoji removal, newline collapse, trim) is
idempotent on every input; only the leading currency formatting breaks the
idempotence of the whole normalizer. -/
theorem ttsCleanup_idempotent (l : List Char) :
    ttsCleanup (ttsCleanup l) = ttsCleanup l := by
  have hw1free : ∀ c ∈ stripEmojiRanges l, isEmojiRangeChar c = false := by
    intro c hc
    have h2 := (List.mem_filter.mp hc).2
    simpa using h2
  have hw2free : ∀ c ∈ removeDoubleStar (stripEmojiRanges l),
      isEmojiRangeChar c = false :=
    fun c hc => hw1free c (mem_removeDoubleStar hc)
  have hw3eq : removeEmojiList (removeDoubleStar (stripEmojiRanges l))
      = removeDoubleStar (stripEmojiRanges l) := removeEmojiList_id hw2free
  have hz : ttsCleanup l = trimJs (collapseNewlines (removeDoubleStar
      (stripEmojiRanges l))) := by
    rw [ttsCleanup, hw3eq]
  have hzfree : ∀ c ∈ ttsCleanup l, isEmojiRangeChar c = false := by
    intro c hc
    rw [hz] at hc
    have h4 := mem_trimJs hc
    rcases mem_collapseNewlinesGo _ _ h4 with h1 | h2 | h3
    · exact hw2free c h1
    · rw [h2]; decide
    · rw [h3]; decide
  have hzstar : NoStarPair (ttsCleanup l) := by
    rw [hz]
    exact trimJs_noStarPair (collapseNewlinesGo_noStarPair _
      (removeDoubleStar_noStarPair _) false)
  have hznonl : ∀ c ∈ ttsCleanup l, ¬ c = '\n' := by
    intro c hc
    rw [hz] at hc
    exact collapseNewlinesGo_no_newline _ _ (mem_trimJs hc)
  have hstrip : stripEmojiRanges (ttsCleanup l) = ttsCleanup l := by
    rw [stripEmojiRanges]
    refine List.filter_eq_self.mpr ?_
    intro c hc
    rw [hzfree c hc]
    rfl
  calc ttsCleanup (ttsCleanup l)
      = trimJs (collapseNewlines (removeEmojiList (removeDoubleStar
          (stripEmojiRanges (ttsCleanup l))))) := rfl
    _ = trimJs (collapseNewlines (removeEmojiList (removeDoubleStar
          (ttsCleanup l)))) := by rw [hstrip]
    _ = trimJs (collapseNewlines (removeEmojiList (ttsCleanup l))) := by
          rw [removeDoubleStar_id_of_noStarPair _ hzstar]
    _ = trimJs (collapseNewlines (ttsCleanup l)) := by
          rw [removeEmojiList_id hzfree]
    _ = trimJs (ttsCleanup l) := by
          rw [collapseNewlines, collapseNewlinesGo_id hznonl false]
    _ = ttsCleanup l := by
          rw [hz]
          exact trimJs_idempotent _

/-- Witness for the C2 evaluation theorem at a concrete environment
without a memory-cache hit. -/
theorem speak_memCache_playback_raises_witness :
    (speakRun (SpeakEnv.mk false false false false false false false false false)).2
      = false :=
  speak_memCache_playback_raises.2
    (SpeakEnv.mk false false false false false false false false false) rfl

/-- Witness for C10 at a concrete distance function and stop list. -/
theorem buscarParadasProximas_spec_witness :
    (buscarParadasProximas (fun _ _ _ _ => ⟨0, 1⟩) ⟨0, 1⟩ ⟨0, 1⟩ ⟨500, 1⟩
        [⟨1, "p", "e", ⟨0, 1⟩, ⟨0, 1⟩⟩]).length ≤ 20 ∧
    ∀ p ∈ buscarParadasProximas (fun _ _ _ _ => ⟨0, 1⟩) ⟨0, 1⟩ ⟨0, 1⟩ ⟨500, 1⟩
        [⟨1, "p", "e", ⟨0, 1⟩, ⟨0, 1⟩⟩], jsIntLe p.distancia ⟨500, 1⟩ = true :=
  ⟨(buscarParadasProximas_spec _ _ _ _ _).1,
   (buscarParadasProximas_spec _ _ _ _ _).2.1⟩
